import Mathlib

/-!
Verification of the wge (wraith game engine) demographic core.

The Go sources (civilians.go, population.go) are embedded shallowly:

* Go `int` is modelled as `Int`; Go integer division `/` truncates
  toward zero, so it is embedded as `Int.tdiv`.
* Go `float64` arithmetic is modelled as exact rational (`ℚ`)
  arithmetic; every float literal of the source is the corresponding
  exact decimal rational.
* the `panic` in the death-rate lookup is modelled by returning
  `Option ℚ`, where `none` stands for the panic.
* the JSON boundary is modelled at the level of structured JSON values
  (`JsonValue`), where decoding errors are `Except.error`.
-/

namespace WGE

/-- Civilian is a population unit composed of loyal and rebel citizens
plus a technology level (struct `Civilian` of civilians.go). -/
structure Civilian where
  loyal : Int
  rebel : Int
  techLevel : Int
deriving DecidableEq, Repr

/-- Embeds `NewCivilian` of civilians.go: rebels start at zero. -/
def NewCivilian (pop techLevel : Int) : Civilian :=
  { loyal := pop, rebel := 0, techLevel := techLevel }

/-- Embeds `Civilian.Population` of civilians.go: total headcount. -/
def Population (p : Civilian) : Int :=
  p.loyal + p.rebel

/-- The tech level computed inside `Civilian.Merge` (civilians.go):
kept when shared, otherwise the population-weighted average with Go's
truncating integer division. -/
def mergedTechLevel (p q : Civilian) : Int :=
  if p.techLevel = q.techLevel then p.techLevel
  else
    Int.tdiv (Population p * p.techLevel + Population q * q.techLevel)
      (Population p + Population q)

/-- The `deltaRebels` computed inside `Civilian.Merge` (civilians.go):
the operand that lost tech ground contributes `rebel * deltaTech / 100`
extra rebels (Go truncating division), floored at 1. -/
def mergeDeltaRebels (p q : Civilian) : Int :=
  let deltaRebels : Int :=
    if p.techLevel = q.techLevel then 0
    else
      let t := mergedTechLevel p q
      if t < p.techLevel then Int.tdiv (p.rebel * (p.techLevel - t)) 100
      else if t < q.techLevel then Int.tdiv (q.rebel * (q.techLevel - t)) 100
      else 0
  if deltaRebels < 1 then 1 else deltaRebels

/-- Embeds `Civilian.Merge` of civilians.go: combine two population units; a
zero-population operand is absorbed, otherwise headcounts are summed
and `deltaRebels` citizens are shifted from loyal to rebel. -/
def Merge (p q : Civilian) : Civilian :=
  if Population p = 0 then q
  else if Population q = 0 then p
  else
    { loyal := p.loyal + q.loyal - mergeDeltaRebels p q
      rebel := p.rebel + q.rebel + mergeDeltaRebels p q
      techLevel := mergedTechLevel p q }

lemma merge_techLevel_of_pos (p q : Civilian)
    (hp : Population p ≠ 0) (hq : Population q ≠ 0) :
    (Merge p q).techLevel = mergedTechLevel p q := by
  simp [Merge, hp, hq]

lemma merge_loyal_of_pos (p q : Civilian)
    (hp : Population p ≠ 0) (hq : Population q ≠ 0) :
    (Merge p q).loyal = p.loyal + q.loyal - mergeDeltaRebels p q := by
  simp [Merge, hp, hq]

lemma merge_rebel_of_pos (p q : Civilian)
    (hp : Population p ≠ 0) (hq : Population q ≠ 0) :
    (Merge p q).rebel = p.rebel + q.rebel + mergeDeltaRebels p q := by
  simp [Merge, hp, hq]

/-- The blended tech level stays between the operands' tech levels. -/
lemma mergedTechLevel_bounds (p q : Civilian)
    (hpt : 0 ≤ p.techLevel) (hqt : 0 ≤ q.techLevel)
    (hp : 0 < Population p) (hq : 0 < Population q) :
    min p.techLevel q.techLevel ≤ mergedTechLevel p q ∧
      mergedTechLevel p q ≤ max p.techLevel q.techLevel := by
  unfold mergedTechLevel
  split_ifs with h
  · simp [h]
  · have hnum : 0 ≤ Population p * p.techLevel + Population q * q.techLevel :=
      add_nonneg (mul_nonneg hp.le hpt) (mul_nonneg hq.le hqt)
    have hden : 0 < Population p + Population q := by omega
    rw [Int.tdiv_eq_ediv hnum hden.le]
    constructor
    · rw [Int.le_ediv_iff_mul_le hden]
      rcases le_total p.techLevel q.techLevel with hle | hle
      · rw [min_eq_left hle]; nlinarith
      · rw [min_eq_right hle]; nlinarith
    · apply Int.ediv_le_of_le_mul hden
      rcases le_total p.techLevel q.techLevel with hle | hle
      · rw [max_eq_right hle]; nlinarith
      · rw [max_eq_left hle]; nlinarith

/-- Stated from the spec's words, to be compared with the code's
`mergeDeltaRebels`: the rebellion shift is `max(1, loser.rebel *
techDrop / 100)` where the loser is the operand whose tech level
exceeds the blended tech level, and the quantity inside the `max` is 0
when no operand lost tech ground. Written with mathematical floor
division (`Int.ediv`, the `/` of `ℤ`). -/
def deltaRebelsSpec (p q : Civilian) : Int :=
  if (Merge p q).techLevel < p.techLevel then
    max 1 (p.rebel * (p.techLevel - (Merge p q).techLevel) / 100)
  else if (Merge p q).techLevel < q.techLevel then
    max 1 (q.rebel * (q.techLevel - (Merge p q).techLevel) / 100)
  else max 1 0

/-- The code's rebellion shift agrees with the spec's description. -/
lemma mergeDeltaRebels_eq_spec (p q : Civilian)
    (hpr : 0 ≤ p.rebel) (hqr : 0 ≤ q.rebel)
    (hp : 0 < Population p) (hq : 0 < Population q) :
    mergeDeltaRebels p q = deltaRebelsSpec p q := by
  have htt : (Merge p q).techLevel = mergedTechLevel p q :=
    merge_techLevel_of_pos p q hp.ne' hq.ne'
  have hmax : ∀ a : Int, (if a < 1 then (1 : Int) else a) = max 1 a := by
    intro a
    rw [max_def]
    split_ifs <;> omega
  simp only [mergeDeltaRebels, deltaRebelsSpec]
  rw [htt]
  by_cases h : p.techLevel = q.techLevel
  · have ht : mergedTechLevel p q = p.techLevel := by simp [mergedTechLevel, h]
    have h2 : ¬ p.techLevel < q.techLevel := by omega
    rw [if_pos h, ht, if_neg (lt_irrefl p.techLevel), if_neg h2]
    decide
  · rw [if_neg h]
    by_cases h1 : mergedTechLevel p q < p.techLevel
    · rw [if_pos h1, if_pos h1,
        Int.tdiv_eq_ediv (mul_nonneg hpr (by omega)) (by norm_num)]
      exact hmax _
    · rw [if_neg h1, if_neg h1]
      by_cases h2 : mergedTechLevel p q < q.techLevel
      · rw [if_pos h2, if_pos h2,
          Int.tdiv_eq_ediv (mul_nonneg hqr (by omega)) (by norm_num)]
        exact hmax _
      · rw [if_neg h2, if_neg h2]
        norm_num

/-- C2: for Civilian units with positive total population, Merge
conserves the total population and shifts exactly `deltaRebelsSpec`
citizens from loyal to rebel. -/
theorem merge_population_deltaRebels_c2 (p q : Civilian)
    (_hpl : 0 ≤ p.loyal) (hpr : 0 ≤ p.rebel) (_hql : 0 ≤ q.loyal) (hqr : 0 ≤ q.rebel)
    (_hpt : 0 ≤ p.techLevel) (_hqt : 0 ≤ q.techLevel)
    (hp : 0 < Population p) (hq : 0 < Population q) :
    Population (Merge p q) = Population p + Population q ∧
    (Merge p q).rebel = p.rebel + q.rebel + deltaRebelsSpec p q ∧
    (Merge p q).loyal = p.loyal + q.loyal - deltaRebelsSpec p q := by
  have hd := mergeDeltaRebels_eq_spec p q hpr hqr hp hq
  have hl := merge_loyal_of_pos p q hp.ne' hq.ne'
  have hr := merge_rebel_of_pos p q hp.ne' hq.ne'
  refine ⟨?_, by rw [hr, hd], by rw [hl, hd]⟩
  unfold Population at *
  rw [hl, hr]
  ring

theorem merge_population_deltaRebels_c2_witness :
    Population (Merge (NewCivilian 300 2) (NewCivilian 100 6)) =
      Population (NewCivilian 300 2) + Population (NewCivilian 100 6) ∧
    (Merge (NewCivilian 300 2) (NewCivilian 100 6)).rebel =
      (NewCivilian 300 2).rebel + (NewCivilian 100 6).rebel +
        deltaRebelsSpec (NewCivilian 300 2) (NewCivilian 100 6) ∧
    (Merge (NewCivilian 300 2) (NewCivilian 100 6)).loyal =
      (NewCivilian 300 2).loyal + (NewCivilian 100 6).loyal -
        deltaRebelsSpec (NewCivilian 300 2) (NewCivilian 100 6) :=
  merge_population_deltaRebels_c2 (NewCivilian 300 2) (NewCivilian 100 6)
    (by decide) (by decide) (by decide) (by decide) (by decide) (by decide)
    (by decide) (by decide)

/-- C1: for Civilian units with positive total population, Merge keeps a
shared tech level and otherwise computes the population-weighted average
floored (Go's truncating division coincides with floor division here);
the five spec vectors hold. -/
theorem merge_techLevel_weighted_c1 (p q : Civilian)
    (_hpl : 0 ≤ p.loyal) (_hpr : 0 ≤ p.rebel) (_hql : 0 ≤ q.loyal) (_hqr : 0 ≤ q.rebel)
    (hpt : 0 ≤ p.techLevel) (hqt : 0 ≤ q.techLevel)
    (hp : 0 < Population p) (hq : 0 < Population q) :
    (p.techLevel = q.techLevel → (Merge p q).techLevel = p.techLevel) ∧
    (p.techLevel ≠ q.techLevel →
      (Merge p q).techLevel =
        Int.fdiv (Population p * p.techLevel + Population q * q.techLevel)
          (Population p + Population q)) ∧
    (Merge (NewCivilian 100 2) (NewCivilian 100 2)).techLevel = 2 ∧
    (Merge (NewCivilian 100 2) (NewCivilian 100 4)).techLevel = 3 ∧
    (Merge (NewCivilian 100 2) (NewCivilian 100 6)).techLevel = 4 ∧
    (Merge (NewCivilian 300 2) (NewCivilian 100 6)).techLevel = 3 ∧
    (Merge (NewCivilian 100 10) (NewCivilian 1000 1)).techLevel = 1 := by
  refine ⟨?_, ?_, by decide, by decide, by decide, by decide, by decide⟩
  · intro h
    rw [merge_techLevel_of_pos p q hp.ne' hq.ne']
    simp [mergedTechLevel, h]
  · intro h
    rw [merge_techLevel_of_pos p q hp.ne' hq.ne']
    unfold mergedTechLevel
    rw [if_neg h]
    have hnum : 0 ≤ Population p * p.techLevel + Population q * q.techLevel :=
      add_nonneg (mul_nonneg hp.le hpt) (mul_nonneg hq.le hqt)
    have hden : 0 < Population p + Population q := by omega
    rw [Int.tdiv_eq_ediv hnum hden.le, Int.fdiv_eq_ediv _ hden.le]

theorem merge_techLevel_weighted_c1_witness :
    (NewCivilian 100 2).techLevel ≠ (NewCivilian 100 4).techLevel ∧
    (Merge (NewCivilian 100 2) (NewCivilian 100 4)).techLevel =
      Int.fdiv
        (Population (NewCivilian 100 2) * (NewCivilian 100 2).techLevel +
          Population (NewCivilian 100 4) * (NewCivilian 100 4).techLevel)
        (Population (NewCivilian 100 2) + Population (NewCivilian 100 4)) :=
  ⟨by decide,
    (merge_techLevel_weighted_c1 (NewCivilian 100 2) (NewCivilian 100 4)
      (by decide) (by decide) (by decide) (by decide) (by decide) (by decide)
      (by decide) (by decide)).2.1 (by decide)⟩

lemma one_le_ite_floor (d : Int) : 1 ≤ if d < 1 then (1 : Int) else d := by
  split_ifs <;> omega

/-- The rebellion shift is always at least 1. -/
lemma one_le_mergeDeltaRebels (p q : Civilian) : 1 ≤ mergeDeltaRebels p q := by
  simp only [mergeDeltaRebels]
  exact one_le_ite_floor _

/-- Upper bound on the rebellion shift for in-invariant units: at most
one tenth of the combined rebel count, floored at 1. -/
lemma mergeDeltaRebels_le (p q : Civilian)
    (hpr : 0 ≤ p.rebel) (hqr : 0 ≤ q.rebel)
    (hpt : 0 ≤ p.techLevel) (hpt10 : p.techLevel ≤ 10)
    (hqt : 0 ≤ q.techLevel) (hqt10 : q.techLevel ≤ 10)
    (hp : 0 < Population p) (hq : 0 < Population q) :
    mergeDeltaRebels p q ≤ max 1 ((p.rebel + q.rebel) / 10) := by
  have hmin := (mergedTechLevel_bounds p q hpt hqt hp hq).1
  have ht0 : 0 ≤ mergedTechLevel p q := le_trans (le_min hpt hqt) hmin
  have hdivle : ∀ r s : Int, 0 ≤ r → r ≤ s →
      ∀ dt : Int, 0 ≤ dt → dt ≤ 10 → r * dt / 100 ≤ max 1 (s / 10) := by
    intro r s hr hrs dt hdt hdt10
    refine le_trans ?_ (le_max_right 1 (s / 10))
    calc r * dt / 100 ≤ s * 10 / 100 :=
          Int.ediv_le_ediv (by norm_num) (by nlinarith)
      _ = s / 10 := by
          rw [(by norm_num : (100 : Int) = 10 * 10)]
          exact Int.mul_ediv_mul_of_pos_left s 10 (by norm_num)
  simp only [mergeDeltaRebels]
  by_cases h : p.techLevel = q.techLevel
  · rw [if_pos h]
    exact le_trans (by norm_num) (le_max_left 1 _)
  · rw [if_neg h]
    by_cases h1 : mergedTechLevel p q < p.techLevel
    · rw [if_pos h1,
        Int.tdiv_eq_ediv (mul_nonneg hpr (by omega)) (by norm_num)]
      have key := hdivle p.rebel (p.rebel + q.rebel) hpr (by omega)
        (p.techLevel - mergedTechLevel p q) (by omega) (by omega)
      rw [max_def] at key ⊢
      generalize p.rebel * (p.techLevel - mergedTechLevel p q) / 100 = d0 at key ⊢
      split_ifs at key ⊢ <;> omega
    · rw [if_neg h1]
      by_cases h2 : mergedTechLevel p q < q.techLevel
      · rw [if_pos h2,
          Int.tdiv_eq_ediv (mul_nonneg hqr (by omega)) (by norm_num)]
        have key := hdivle q.rebel (p.rebel + q.rebel) hqr (by omega)
          (q.techLevel - mergedTechLevel p q) (by omega) (by omega)
        rw [max_def] at key ⊢
        generalize q.rebel * (q.techLevel - mergedTechLevel p q) / 100 = d0 at key ⊢
        split_ifs at key ⊢ <;> omega
      · rw [if_neg h2]
        exact le_trans (by norm_num) (le_max_left 1 _)

/-- C3 counterexample: two valid units with zero loyal citizens and one
rebel each merge into a unit with a negative loyal count. -/
theorem merge_invariants_c3_counterexample :
    0 ≤ (⟨0, 1, 0⟩ : Civilian).loyal ∧ 0 ≤ (⟨0, 1, 0⟩ : Civilian).rebel ∧
    0 ≤ (⟨0, 1, 0⟩ : Civilian).techLevel ∧ (⟨0, 1, 0⟩ : Civilian).techLevel ≤ 10 ∧
    (Merge ⟨0, 1, 0⟩ ⟨0, 1, 0⟩).loyal < 0 := by decide

/-- C3 amended: for valid units, Merge preserves `rebel ≥ 0` and
`0 ≤ techLevel ≤ 10`; `loyal ≥ 0` is preserved provided the combined
loyal count covers the rebellion shift, for which
`max 1 ((p.rebel + q.rebel) / 10) ≤ p.loyal + q.loyal` suffices. -/
theorem merge_preserves_invariants_c3_amended (p q : Civilian)
    (hpl : 0 ≤ p.loyal) (hpr : 0 ≤ p.rebel) (hql : 0 ≤ q.loyal) (hqr : 0 ≤ q.rebel)
    (hpt : 0 ≤ p.techLevel) (hpt10 : p.techLevel ≤ 10)
    (hqt : 0 ≤ q.techLevel) (hqt10 : q.techLevel ≤ 10) :
    0 ≤ (Merge p q).rebel ∧
    0 ≤ (Merge p q).techLevel ∧ (Merge p q).techLevel ≤ 10 ∧
    (max 1 ((p.rebel + q.rebel) / 10) ≤ p.loyal + q.loyal → 0 ≤ (Merge p q).loyal) := by
  by_cases hp : Population p = 0
  · simp only [Merge, if_pos hp]
    exact ⟨hqr, hqt, hqt10, fun _ => hql⟩
  · by_cases hq : Population q = 0
    · simp only [Merge, if_neg hp, if_pos hq]
      exact ⟨hpr, hpt, hpt10, fun _ => hpl⟩
    · have hp' : 0 < Population p := by unfold Population at hp ⊢; omega
      have hq' : 0 < Population q := by unfold Population at hq ⊢; omega
      have hbounds := mergedTechLevel_bounds p q hpt hqt hp' hq'
      have hminlb : 0 ≤ min p.techLevel q.techLevel := le_min hpt hqt
      have hmaxub : max p.techLevel q.techLevel ≤ 10 := max_le hpt10 hqt10
      have hd1 := one_le_mergeDeltaRebels p q
      have hd2 := mergeDeltaRebels_le p q hpr hqr hpt hpt10 hqt hqt10 hp' hq'
      rw [merge_techLevel_of_pos p q hp hq, merge_loyal_of_pos p q hp hq,
        merge_rebel_of_pos p q hp hq]
      refine ⟨by omega, by omega, by omega, fun hcond => by omega⟩

theorem merge_preserves_invariants_c3_witness :
    0 ≤ (Merge (NewCivilian 100 2) (NewCivilian 100 6)).rebel ∧
    0 ≤ (Merge (NewCivilian 100 2) (NewCivilian 100 6)).techLevel ∧
    (Merge (NewCivilian 100 2) (NewCivilian 100 6)).techLevel ≤ 10 ∧
    (max 1 (((NewCivilian 100 2).rebel + (NewCivilian 100 6).rebel) / 10) ≤
        (NewCivilian 100 2).loyal + (NewCivilian 100 6).loyal →
      0 ≤ (Merge (NewCivilian 100 2) (NewCivilian 100 6)).loyal) :=
  merge_preserves_invariants_c3_amended (NewCivilian 100 2) (NewCivilian 100 6)
    (by decide) (by decide) (by decide) (by decide) (by decide) (by decide)
    (by decide) (by decide)

/-- C4 counterexample: a zero-population unit carrying a nonzero tech
level is not returned unchanged when merged with an empty unit — the
empty operand is returned instead, losing the tech level. -/
theorem merge_identity_c4_counterexample :
    Population (⟨0, 0, 0⟩ : Civilian) = 0 ∧
    Merge ⟨0, 0, 1⟩ ⟨0, 0, 0⟩ ≠ (⟨0, 0, 1⟩ : Civilian) := by decide

/-- C4 amended: for `empty` of zero total population,
`empty.Merge(u) = u` holds for every `u`, and `u.Merge(empty) = u`
holds whenever `u` itself has nonzero total population. -/
theorem merge_identity_c4_amended (u e : Civilian) (he : Population e = 0) :
    Merge e u = u ∧ (Population u ≠ 0 → Merge u e = u) := by
  constructor
  · simp [Merge, he]
  · intro hu
    simp [Merge, he, hu]

theorem merge_identity_c4_witness :
    Merge ⟨0, 0, 0⟩ (NewCivilian 100 2) = NewCivilian 100 2 ∧
    (Population (NewCivilian 100 2) ≠ 0 →
      Merge (NewCivilian 100 2) ⟨0, 0, 0⟩ = NewCivilian 100 2) :=
  merge_identity_c4_amended (NewCivilian 100 2) ⟨0, 0, 0⟩ (by decide)

/-- The blended tech level is symmetric in the operands. -/
lemma mergedTechLevel_comm (p q : Civilian) :
    mergedTechLevel p q = mergedTechLevel q p := by
  unfold mergedTechLevel
  by_cases h : p.techLevel = q.techLevel
  · rw [if_pos h, if_pos h.symm, h]
  · rw [if_neg h, if_neg (Ne.symm h)]
    congr 1 <;> ring

/-- The rebellion shift is symmetric in the operands for in-invariant
tech levels (at most one operand can lose tech ground). -/
lemma mergeDeltaRebels_comm (p q : Civilian)
    (hpt : 0 ≤ p.techLevel) (hqt : 0 ≤ q.techLevel)
    (hp : 0 < Population p) (hq : 0 < Population q) :
    mergeDeltaRebels p q = mergeDeltaRebels q p := by
  have hmin := (mergedTechLevel_bounds p q hpt hqt hp hq).1
  simp only [mergeDeltaRebels]
  rw [← mergedTechLevel_comm p q]
  by_cases h : p.techLevel = q.techLevel
  · rw [if_pos h, if_pos h.symm]
  · rw [if_neg h, if_neg (Ne.symm h)]
    have hnb : ¬(mergedTechLevel p q < p.techLevel ∧
        mergedTechLevel p q < q.techLevel) := by
      rintro ⟨h1, h2⟩
      rcases le_total p.techLevel q.techLevel with hle | hle
      · rw [min_eq_left hle] at hmin; omega
      · rw [min_eq_right hle] at hmin; omega
    by_cases h1 : mergedTechLevel p q < p.techLevel
    · have h2 : ¬ mergedTechLevel p q < q.techLevel := fun hc => hnb ⟨h1, hc⟩
      simp only [if_pos h1, if_neg h2]
    · simp only [if_neg h1]

/-- C5 counterexample: merging two distinct empty units returns the
other operand verbatim, so the two orders disagree. -/
theorem merge_comm_c5_counterexample :
    Merge ⟨0, 0, 0⟩ ⟨0, 0, 1⟩ ≠ Merge ⟨0, 0, 1⟩ ⟨0, 0, 0⟩ := by decide

/-- C5 amended: Merge is commutative for valid units (nonnegative
counts and tech levels) as long as at least one operand has nonzero
total population. -/
theorem merge_comm_c5_amended (p q : Civilian)
    (hpl : 0 ≤ p.loyal) (hpr : 0 ≤ p.rebel) (hql : 0 ≤ q.loyal) (hqr : 0 ≤ q.rebel)
    (hpt : 0 ≤ p.techLevel) (hqt : 0 ≤ q.techLevel)
    (hne : Population p ≠ 0 ∨ Population q ≠ 0) :
    Merge p q = Merge q p := by
  by_cases hp : Population p = 0
  · have hq : Population q ≠ 0 := by tauto
    simp [Merge, hp, hq]
  · by_cases hq : Population q = 0
    · simp [Merge, hp, hq]
    · have hp' : 0 < Population p := by unfold Population at hp ⊢; omega
      have hq' : 0 < Population q := by unfold Population at hq ⊢; omega
      have h1 := mergedTechLevel_comm p q
      have h2 := mergeDeltaRebels_comm p q hpt hqt hp' hq'
      simp only [Merge, if_neg hp, if_neg hq, Civilian.mk.injEq]
      refine ⟨by omega, by omega, h1⟩

theorem merge_comm_c5_witness :
    Merge (NewCivilian 100 2) (NewCivilian 100 4) =
      Merge (NewCivilian 100 4) (NewCivilian 100 2) :=
  merge_comm_c5_amended (NewCivilian 100 2) (NewCivilian 100 4)
    (by decide) (by decide) (by decide) (by decide) (by decide) (by decide)
    (Or.inl (by decide))

/-- Modelled from the spec: the helper `clamp` called by population.go
and civilians.go is not among the provided source files; per the spec,
values outside the range are silently saturated to the nearest bound. -/
def clamp (v lo hi : ℚ) : ℚ :=
  if v < lo then lo
  else if v > hi then hi
  else v

/-- Embeds `naturalBirthRate` of population.go, with `float64` modelled as
exact rational arithmetic. -/
def naturalBirthRate (techLevel : Int) (standardOfLiving pctCapacity : ℚ)
    (isOnShip isResortColony : Bool) : ℚ :=
  if isOnShip then 0
  else
    let sol := clamp standardOfLiving 0.01 3.0
    let cap := clamp pctCapacity 0.01 1.0
    let birthRate := ((11 - techLevel : Int) : ℚ) * 0.1
    let birthRate :=
      if birthRate < 0.0025 then 0.0025
      else if birthRate > 0.10 then 0.10
      else birthRate
    let birthRate := if isResortColony then birthRate * 2 else birthRate
    let birthRate :=
      if sol < 0.25 then birthRate * 1.5
      else if sol < 0.80 then birthRate * 1.25
      else if sol < 1.20 then birthRate
      else if sol > 1.20 then birthRate * 0.75
      else if sol > 1.75 then birthRate * 0.5
      else birthRate
    let birthRate :=
      if cap < 0.25 then birthRate * 1.25
      else if cap < 0.40 then birthRate * 1.10
      else if cap < 0.65 then birthRate
      else if cap < 0.70 then birthRate * 0.90
      else if cap < 0.80 then birthRate * 0.60
      else if cap < 0.90 then birthRate * 0.25
      else if cap < 0.95 then birthRate * 0.1
      else birthRate * 0.05
    clamp birthRate 0.0025 0.10

/-- Stated from the spec's words, to be compared with the code's
`naturalBirthRate`: the same function with the unreachable
`standardOfLiving > 1.75` band deleted. -/
def naturalBirthRateDeadBandRemoved (techLevel : Int)
    (standardOfLiving pctCapacity : ℚ) (isOnShip isResortColony : Bool) : ℚ :=
  if isOnShip then 0
  else
    let sol := clamp standardOfLiving 0.01 3.0
    let cap := clamp pctCapacity 0.01 1.0
    let birthRate := ((11 - techLevel : Int) : ℚ) * 0.1
    let birthRate :=
      if birthRate < 0.0025 then 0.0025
      else if birthRate > 0.10 then 0.10
      else birthRate
    let birthRate := if isResortColony then birthRate * 2 else birthRate
    let birthRate :=
      if sol < 0.25 then birthRate * 1.5
      else if sol < 0.80 then birthRate * 1.25
      else if sol < 1.20 then birthRate
      else if sol > 1.20 then birthRate * 0.75
      else birthRate
    let birthRate :=
      if cap < 0.25 then birthRate * 1.25
      else if cap < 0.40 then birthRate * 1.10
      else if cap < 0.65 then birthRate
      else if cap < 0.70 then birthRate * 0.90
      else if cap < 0.80 then birthRate * 0.60
      else if cap < 0.90 then birthRate * 0.25
      else if cap < 0.95 then birthRate * 0.1
      else birthRate * 0.05
    clamp birthRate 0.0025 0.10

/-- The `switch techLevel` base-rate lookup of `naturalDeathRate`
(population.go); `none` models the `panic` of the `default` arm. -/
def deathRateBase (techLevel : Int) : Option ℚ :=
  if techLevel = 0 then some (1500 / 100000)
  else if techLevel = 1 then some (1400 / 100000)
  else if techLevel = 2 then some (1300 / 100000)
  else if techLevel = 3 then some (1200 / 100000)
  else if techLevel = 4 then some (1100 / 100000)
  else if techLevel = 5 then some (1000 / 100000)
  else if techLevel = 6 then some (900 / 100000)
  else if techLevel = 7 then some (800 / 100000)
  else if techLevel = 8 then some (700 / 100000)
  else if techLevel = 9 then some (600 / 100000)
  else if techLevel = 10 then some (500 / 100000)
  else none

/-- Embeds `naturalDeathRate` of population.go; `none` models the panic. -/
def naturalDeathRate (techLevel : Int) (standardOfLiving pctCapacity : ℚ) :
    Option ℚ :=
  let sol := clamp standardOfLiving 0.01 3.0
  let cap := clamp pctCapacity 0.01 1.0
  match deathRateBase techLevel with
  | none => none
  | some deathRate =>
    let deathRate :=
      if sol > 1.500 then deathRate * 0.975
      else if sol > 1.250 then deathRate * 0.950
      else if sol > 0.990 then deathRate
      else if sol > 0.875 then deathRate * 1.025
      else if sol > 0.750 then deathRate * 1.050
      else if sol > 0.625 then deathRate * 1.075
      else if sol > 0.500 then deathRate * 1.100
      else if sol > 0.375 then deathRate * 1.125
      else if sol > 0.250 then deathRate * 1.150
      else if sol > 0.125 then deathRate * 1.175
      else deathRate
    let deathRate :=
      if cap > 2.000 then deathRate * 3.000
      else if cap > 1.500 then deathRate * 2.000
      else if cap > 0.990 then deathRate * 1.500
      else if cap > 0.975 then deathRate * 1.250
      else if cap > 0.950 then deathRate * 1.100
      else if cap > 0.925 then deathRate * 1.025
      else if cap > 0.900 then deathRate * 1.010
      else deathRate
    some (clamp deathRate 0.0025 0.75)

/-- Embeds `Civilian.IsOnShip` of civilians.go: hardcoded false. -/
def Civilian.IsOnShip (_ : Civilian) : Bool := false

/-- Embeds `Civilian.IsResortColony` of civilians.go: hardcoded false. -/
def Civilian.IsResortColony (_ : Civilian) : Bool := false

/-- Embeds `Civilian.NaturalBirthRate` of civilians.go: same computation as
`naturalBirthRate` with the unit's tech level and habitat flags. -/
def Civilian.NaturalBirthRate (p : Civilian)
    (standardOfLiving pctCapacity : ℚ) : ℚ :=
  naturalBirthRate p.techLevel standardOfLiving pctCapacity
    p.IsOnShip p.IsResortColony

/-- Embeds `Civilian.NaturalDeathRate` of civilians.go: same computation as
`naturalDeathRate` with the unit's tech level. -/
def Civilian.NaturalDeathRate (p : Civilian)
    (standardOfLiving pctCapacity : ℚ) : Option ℚ :=
  naturalDeathRate p.techLevel standardOfLiving pctCapacity

set_option maxHeartbeats 1000000 in
lemma deathRateBase_isSome (techLevel : Int) :
    (deathRateBase techLevel).isSome ↔ 0 ≤ techLevel ∧ techLevel ≤ 10 := by
  unfold deathRateBase
  split_ifs <;>
    first
      | exact iff_of_true rfl (by omega)
      | exact iff_of_false (by decide) (by omega)

/-- C6: the death-rate computation returns a value exactly when the
tech level lies in [0,10], and panics (modelled by `none`) otherwise. -/
theorem deathRate_panic_iff_c6 (techLevel : Int)
    (standardOfLiving pctCapacity : ℚ) :
    (naturalDeathRate techLevel standardOfLiving pctCapacity).isSome ↔
      0 ≤ techLevel ∧ techLevel ≤ 10 := by
  rw [← deathRateBase_isSome techLevel]
  unfold naturalDeathRate
  cases deathRateBase techLevel with
  | none => exact Iff.rfl
  | some r => exact Iff.rfl

/-- C7: the birth-rate computation returns exactly 0 whenever the unit
is on a ship, for every other input. -/
theorem birthRate_zero_on_ship_c7 (techLevel : Int)
    (standardOfLiving pctCapacity : ℚ) (isResortColony : Bool) :
    naturalBirthRate techLevel standardOfLiving pctCapacity true
      isResortColony = 0 := by
  simp [naturalBirthRate]

/-- C8: the `standardOfLiving > 1.75` band of the birth-rate
computation is dead code: the function is extensionally equal to the
variant with that band deleted, because a value that fails the
`< 1.20` and `> 1.20` tests equals 1.20 and cannot exceed 1.75. -/
theorem birthRate_dead_band_c8 (techLevel : Int)
    (standardOfLiving pctCapacity : ℚ) (isOnShip isResortColony : Bool) :
    naturalBirthRate techLevel standardOfLiving pctCapacity
        isOnShip isResortColony =
      naturalBirthRateDeadBandRemoved techLevel standardOfLiving pctCapacity
        isOnShip isResortColony := by
  unfold naturalBirthRate naturalBirthRateDeadBandRemoved
  cases isOnShip
  · simp only [Bool.false_eq_true, if_false]
    set s := clamp standardOfLiving 0.01 3.0 with hs
    by_cases h1 : s < 1.20
    · simp only [if_pos h1]
    · by_cases h2 : s > 1.20
      · simp only [if_neg h1, if_pos h2]
      · have h3 : ¬ s > 1.75 := by
          push_neg at h1 h2 ⊢
          linarith
        simp only [if_neg h1, if_neg h2, if_neg h3]
  · rfl

/-- C9: birth-rate boundary values off-ship on a non-resort colony; in
the exact-rational model the first two are exact and the third is
exact as well, hence within the 1e-8 tolerance. -/
theorem birthRate_boundary_values_c9 :
    naturalBirthRate 1 1 0.6 false false = 0.10 ∧
    naturalBirthRate 10 2 0.9 false false = 0.0075 ∧
    |naturalBirthRate 2 0.5 0.8 false false - 0.03125| < 1e-8 := by
  refine ⟨?_, ?_, ?_⟩ <;> norm_num [naturalBirthRate, clamp]

/-- Structured JSON values, the level at which the encode/decode
contract of civilians.go is modelled (numbers restricted to the
integers the three fields carry). -/
inductive JsonValue where
  | null
  | bool (b : Bool)
  | num (n : Int)
  | str (s : String)
  | arr (elems : List JsonValue)
  | obj (fields : List (String × JsonValue))

/-- True when the value is a JSON number. -/
def JsonValue.isNum : JsonValue → Bool
  | .num _ => true
  | _ => false

/-- Embeds `Civilian.MarshalJSON` of civilians.go: the three fields of
`auxCivilian` under their JSON tags. -/
def Civilian.MarshalJSON (p : Civilian) : JsonValue :=
  .obj [("loyal-citizens", .num p.loyal),
        ("rebel-citizens", .num p.rebel),
        ("tech-level", .num p.techLevel)]

/-- Decoding an object's fields into `auxCivilian` (loyal, rebel, tech),
as encoding/json fills a struct: starting from the zero value, a tagged
key requires a number and overwrites its field (later duplicates win),
unknown keys are ignored. Go's case-insensitive key fallback is not
exercised by this contract and is not modelled. -/
def decodeAuxFields :
    List (String × JsonValue) → Int × Int × Int → Except String (Int × Int × Int)
  | [], aux => .ok aux
  | (key, value) :: rest, (l, r, t) =>
    if key = "loyal-citizens" then
      match value with
      | .num n => decodeAuxFields rest (n, r, t)
      | _ => .error "decode civilian: cannot unmarshal value into loyal-citizens"
    else if key = "rebel-citizens" then
      match value with
      | .num n => decodeAuxFields rest (l, n, t)
      | _ => .error "decode civilian: cannot unmarshal value into rebel-citizens"
    else if key = "tech-level" then
      match value with
      | .num n => decodeAuxFields rest (l, r, n)
      | _ => .error "decode civilian: cannot unmarshal value into tech-level"
    else decodeAuxFields rest (l, r, t)

/-- Assigning the decoded `auxCivilian` triple to the unit's fields, or
wrapping the decode failure as `fmt.Errorf("decode civilian: %w", err)`
does. -/
def auxToCivilian : Except String (Int × Int × Int) → Except String Civilian
  | .ok (l, r, t) => .ok { loyal := l, rebel := r, techLevel := t }
  | .error e => .error ("decode civilian: " ++ e)

/-- Embeds `Civilian.UnmarshalJSON` of civilians.go at the JSON-value level:
decode into the zero-valued `auxCivilian`, then assign the three
fields; any failure surfaces as a wrapped decode error, never a panic
(decoding is total). Top-level `null` is a no-op decode into the zero
aux value, as with encoding/json. -/
def Civilian.UnmarshalJSON (data : JsonValue) : Except String Civilian :=
  match data with
  | .null => .ok { loyal := 0, rebel := 0, techLevel := 0 }
  | .obj fields => auxToCivilian (decodeAuxFields fields (0, 0, 0))
  | .bool _ => .error "decode civilian: cannot unmarshal bool into auxCivilian"
  | .num _ => .error "decode civilian: cannot unmarshal number into auxCivilian"
  | .str _ => .error "decode civilian: cannot unmarshal string into auxCivilian"
  | .arr _ => .error "decode civilian: cannot unmarshal array into auxCivilian"

/-- True when the decode attempt failed. -/
def isDecodeError {α : Type} : Except String α → Bool
  | .error _ => true
  | .ok _ => false

/-- Every tagged key of the field list carries a JSON number. -/
def fieldsWellTyped : List (String × JsonValue) → Bool
  | [] => true
  | (key, value) :: rest =>
    (if key = "loyal-citizens" then value.isNum
     else if key = "rebel-citizens" then value.isNum
     else if key = "tech-level" then value.isNum
     else true) && fieldsWellTyped rest

/-- Structurally malformed input per the spec: anything that is not a
decodable JSON document for `auxCivilian` — a non-object, non-null
value, or an object whose tagged keys carry non-number values. -/
def structurallyMalformed (v : JsonValue) : Bool :=
  match v with
  | .null => false
  | .obj fields => ! fieldsWellTyped fields
  | _ => true

lemma decodeAuxFields_isError (fields : List (String × JsonValue)) :
    fieldsWellTyped fields = false →
    ∀ aux, isDecodeError (decodeAuxFields fields aux) = true := by
  induction fields with
  | nil => intro h; simp [fieldsWellTyped] at h
  | cons kv rest ih =>
    obtain ⟨key, value⟩ := kv
    intro h aux
    obtain ⟨l, r, t⟩ := aux
    simp only [fieldsWellTyped, Bool.and_eq_false_iff] at h
    simp only [decodeAuxFields]
    by_cases hk1 : key = "loyal-citizens"
    · rw [if_pos hk1] at h ⊢
      cases value <;> simp_all [JsonValue.isNum, isDecodeError]
    · rw [if_neg hk1] at h ⊢
      by_cases hk2 : key = "rebel-citizens"
      · rw [if_pos hk2] at h ⊢
        cases value <;> simp_all [JsonValue.isNum, isDecodeError]
      · rw [if_neg hk2] at h ⊢
        by_cases hk3 : key = "tech-level"
        · rw [if_pos hk3] at h ⊢
          cases value <;> simp_all [JsonValue.isNum, isDecodeError]
        · rw [if_neg hk3] at h ⊢
          rcases h with h | h
          · exact absurd h (by simp)
          · exact ih h _

/-- C10: encoding then decoding reproduces the unit exactly, and every
structurally malformed input produces a decode error (decoding is a
total function, so it never panics). -/
theorem json_roundtrip_c10 :
    (∀ u : Civilian, Civilian.UnmarshalJSON (Civilian.MarshalJSON u) = .ok u) ∧
    (∀ v : JsonValue, structurallyMalformed v = true →
      isDecodeError (Civilian.UnmarshalJSON v) = true) := by
  constructor
  · intro u
    obtain ⟨l, r, t⟩ := u
    rfl
  · intro v h
    cases v with
    | null => simp [structurallyMalformed] at h
    | bool b => rfl
    | num n => rfl
    | str s => rfl
    | arr elems => rfl
    | obj fields =>
      have hw : fieldsWellTyped fields = false := by
        simpa [structurallyMalformed] using h
      have hd := decodeAuxFields_isError fields hw (0, 0, 0)
      show isDecodeError (auxToCivilian (decodeAuxFields fields (0, 0, 0))) = true
      cases hx : decodeAuxFields fields (0, 0, 0) with
      | ok a => rw [hx] at hd; simp [isDecodeError] at hd
      | error e => rfl

theorem json_roundtrip_c10_witness :
    Civilian.UnmarshalJSON (Civilian.MarshalJSON ⟨3, 5, 7⟩) = .ok ⟨3, 5, 7⟩ ∧
    isDecodeError (Civilian.UnmarshalJSON (.str "bogus")) = true :=
  ⟨json_roundtrip_c10.1 ⟨3, 5, 7⟩, json_roundtrip_c10.2 (.str "bogus") rfl⟩

end WGE
